import Mathlib

/-!
Verification of the gVCF block-merging scripts of the `googva` repository.

The development shallowly embeds `gvcf-mapper-cl.py` (class `gVCFMapper`),
the implementation the design document's core components describe: the
Record Model, the Filter Evaluator (`meets_filter_criteria`), the Variant
Classifier (`is_variant`), the Block Accumulator (`accumulate_block` /
`emit_block`) and the Stream Driver (`run`).

Python strings are modelled as Lean `String`s; the handful of string
primitives the scripts use (`split`, `rstrip`, `startswith`, `in`,
`int(...)`, `str(...)`, `"\t".join(...)`) are defined here by structural
recursion over the underlying character lists so that every definition is
executable and kernel-reducible.  A Python exception (IndexError on a short
line, ValueError from `int(...)`) is modelled as `Except.error ()`.
-/

namespace Googva

/-- Predicate for the characters Python's `str.rstrip()` / `str.strip()`
remove: ASCII whitespace. -/
def pyIsSpace (c : Char) : Bool :=
  c == ' ' || c == '\t' || c == '\n' || c == '\r' || c == '\x0b' || c == '\x0c'

/-- Character-list helper: if `p` is a leading segment of `l`, return the
remainder of `l`, else `none`. -/
def stripPre : List Char → List Char → Option (List Char)
  | [], l => some l
  | _ :: _, [] => none
  | a :: as, b :: bs => if a == b then stripPre as bs else none

/-- Python `s.startswith(p)`. -/
def pyStartsWith (s p : String) : Bool :=
  (stripPre p.data s.data).isSome

/-- Python `p in s` (substring containment) on character lists. -/
def chContains (p : List Char) : List Char → Bool
  | [] => (stripPre p []).isSome
  | c :: cs => (stripPre p (c :: cs)).isSome || chContains p cs

/-- Python `p in s` (substring containment). -/
def pyContains (s p : String) : Bool :=
  chContains p.data s.data

/-- Python `s.rstrip()`: drop trailing whitespace. -/
def pyRstrip (s : String) : String :=
  ⟨(s.data.reverse.dropWhile pyIsSpace).reverse⟩

/-- Fuel-driven worker for Python `s.split(sep)` with a non-empty separator:
scan left to right, cutting at each non-overlapping occurrence of `sep`.
The fuel, initialised to the length of the scanned list, only bounds the
recursion; it is never exhausted when `sep` is non-empty. -/
def pySplitGo (sep : List Char) : Nat → List Char → List Char → List (List Char)
  | _, [], acc => [acc.reverse]
  | 0, l, acc => [acc.reverse ++ l]
  | fuel + 1, c :: cs, acc =>
    match stripPre sep (c :: cs) with
    | some rest => acc.reverse :: pySplitGo sep fuel rest []
    | none => pySplitGo sep fuel cs (c :: acc)

/-- Python `s.split(sep)` for a non-empty separator `sep`. -/
def pySplit (s sep : String) : List String :=
  (pySplitGo sep.data s.data.length s.data []).map (fun l => ⟨l⟩)

/-- Digit-string parser: `some n` when the list is non-empty and all digits. -/
def chDigits : List Char → Option Nat
  | [] => none
  | l => go l 0
where
  go : List Char → Nat → Option Nat
    | [], acc => some acc
    | c :: cs, acc => if c.isDigit then go cs (acc * 10 + (c.toNat - 48)) else none

/-- Python `int(s)` on a string: optional surrounding whitespace, an optional
sign, then decimal digits; `none` models the `ValueError` raised otherwise. -/
def pyInt (s : String) : Option Int :=
  match (s.data.dropWhile pyIsSpace).reverse.dropWhile pyIsSpace |>.reverse with
  | '-' :: rest => (chDigits rest).map (fun n => -(n : Int))
  | '+' :: rest => (chDigits rest).map (fun n => (n : Int))
  | t => (chDigits t).map (fun n => (n : Int))

/-- Digit accumulator for `pyStrInt`; fuel starts above the number of digits. -/
def natDigits : Nat → Nat → List Char → List Char
  | 0, _, acc => acc
  | fuel + 1, n, acc =>
    let d := Char.ofNat (48 + n % 10)
    if n / 10 == 0 then d :: acc else natDigits fuel (n / 10) (d :: acc)

/-- Python `str(i)` for an integer. -/
def pyStrInt (i : Int) : String :=
  match i with
  | .ofNat n => ⟨natDigits (n + 1) n []⟩
  | .negSucc m => ⟨'-' :: natDigits (m + 2) (m + 1) []⟩

/-- Python `"sep".join(l)`. -/
def pyJoin (sep : String) : List String → String
  | [] => ""
  | [x] => x
  | x :: y :: xs => x ++ sep ++ pyJoin sep (y :: xs)

/-- Last-binding lookup, the observable behaviour of a Python dict built by
repeated assignment: `d[k] = v` overwrites, so lookup finds the last pair. -/
def dget (d : List (String × String)) (k : String) : Option String :=
  (d.reverse.find? (fun p => p.1 == k)).map Prod.snd

/-- One tab-separated VCF line split into its columns, mirroring the index
constants of the scripts: CHROM=0, POS=1, ID=2, REF=3, ALT=4, QUAL=5,
FILTER=6, INFO=7, FORMAT=8, GENOTYPE=9.  `extra` keeps any columns past the
tenth, which Python's list carries along and re-joins on output. -/
structure Fields where
  chrom : String
  pos : String
  vid : String
  ref : String
  alt : String
  qual : String
  filtr : String
  info : String
  format : String
  genotype : String
  extra : List String
deriving DecidableEq, Repr

/-- Python `line.split("\t")` viewed as a `Fields` value; `none` models the
IndexError a record with fewer than ten columns raises as soon as
`fields[GENOTYPE]` is read (which every non-header line is subjected to). -/
def parseFields (line : String) : Option Fields :=
  match pySplit line "\t" with
  | c :: p :: i :: r :: a :: q :: ft :: inf :: fo :: g :: rest =>
    some ⟨c, p, i, r, a, q, ft, inf, fo, g, rest⟩
  | _ => none

/-- Python `"\t".join(fields)`. -/
def joinFields (f : Fields) : String :=
  pyJoin "\t" ([f.chrom, f.pos, f.vid, f.ref, f.alt, f.qual, f.filtr,
                f.info, f.format, f.genotype] ++ f.extra)

/-- Configuration of `gVCFMapper.__init__`: the GQ and DP thresholds. -/
structure Config where
  min_gq : Int
  min_dp : Int
deriving DecidableEq, Repr

/-- Mutable block state of the accumulator (`gvcf-mapper-cl.py` lines
57-59): the open block's first record, its most recent record, and the
tri-state reference flag. -/
structure AccState where
  g_start_block : Option Fields
  g_end_block : Option Fields
  ref_block : Option Bool
deriving DecidableEq, Repr

/-- Initial accumulator state set by `__init__`: no open block. -/
def initAccState : AccState := ⟨none, none, none⟩

/-- Embeds `gVCFMapper.info_to_dict` (lines 325-335): split INFO on `;`, keep the
non-empty items, and store each `key=value` item; an item that does not
split into exactly a key and a value raises inside the `try` and is
silently dropped. -/
def info_to_dict (f : Fields) : List (String × String) :=
  ((pySplit f.info ";").filter (fun s => !(s == ""))).foldl
    (fun d item =>
      match pySplit item "=" with
      | [k, v] => d ++ [(k, v)]
      | _ => d)
    []

/-- Embeds `gVCFMapper.block_end_value` (lines 146-151): the END value of the
record's INFO, or the record's own position when absent. -/
def block_end_value (f : Fields) : String :=
  match dget (info_to_dict f) "END" with
  | some v => v
  | none => f.pos

/-- Embeds `gVCFMapper.call_info` (lines 337-345): pair the colon-split FORMAT
keys positionally with the colon-split sample values.  When the sample
column has fewer parts than FORMAT, `values[index]` raises IndexError,
modelled as `Except.error ()`. -/
def call_info (f : Fields) : Except Unit (List (String × String)) :=
  let fm := pySplit f.format ":"
  let vs := pySplit f.genotype ":"
  if fm.length ≤ vs.length then .ok (fm.zip vs) else .error ()

/-- Embeds `gVCFMapper.is_ref` (lines 278-280): a record whose ALT column is `.`
or `<NON_REF>` is a reference-call candidate (Python returns `True` or the
falsy `None`). -/
def is_ref (f : Fields) : Bool :=
  f.alt == "." || f.alt == "<NON_REF>"

/-- Embeds `gVCFMapper.is_variant` (lines 245-259): not a variant exactly when the
sample column contains `0|0` or `0/0` as a substring. -/
def is_variant (f : Fields) : Bool :=
  !(pyContains f.genotype "0|0" || pyContains f.genotype "0/0")

/-- DP half of the filter (lines 317-319): executed only when the GQ check
did not already return, then the trailing `return True` (line 321). -/
def dpCheck (cfg : Config) (ci : List (String × String)) : Except Unit Bool :=
  match dget ci "DP" with
  | some d =>
    match pyInt d with
    | none => .error ()
    | some di => if cfg.min_dp > di then .ok false else .ok true
  | none => .ok true

/-- Embeds `gVCFMapper.meets_filter_criteria` (lines 283-321, the live code after
the commented-out historical criteria): a non-reference record passes; a
reference candidate fails on REF `N`, then on a decoded GQ below `min_gq`,
then on a decoded DP below `min_dp`, and passes otherwise. -/
def meets_filter_criteria (cfg : Config) (f : Fields) : Except Unit Bool :=
  if is_ref f then
    if f.ref == "N" then .ok false
    else
      match call_info f with
      | .error e => .error e
      | .ok ci =>
        match dget ci "GQ" with
        | some g =>
          match pyInt g with
          | none => .error ()
          | some gi =>
            if cfg.min_gq > gi then .ok false
            else dpCheck cfg ci
        | none => dpCheck cfg ci
  else .ok true

/-- Embeds `gVCFMapper.emit_block` (lines 179-228): with no open block, return at
once; otherwise reuse the start record, rewriting INFO to
`END=<end value of the end record + len(its REF) - 1>` when an end record
is present, rewriting FORMAT/sample to `GT` and `./.` when the block is a
no-call block, and reset the state. -/
def emit_block (s : AccState) : Except Unit (List String × AccState) :=
  match s.g_start_block with
  | none => .ok ([], s)
  | some bf =>
    match
      (match s.g_end_block with
       | some e =>
         match pyInt (block_end_value e) with
         | none => Except.error ()
         | some v =>
           Except.ok { bf with info := "END=" ++ pyStrInt (v + (e.ref.data.length : Int) - 1) }
       | none => Except.ok bf) with
    | .error e => .error e
    | .ok bf1 =>
      let bf2 := if s.ref_block == some false
        then { bf1 with format := "GT", genotype := "./." } else bf1
      .ok ([joinFields bf2], ⟨none, none, none⟩)

/-- First section of `accumulate_block` (lines 114-120): possibly close the
current block — on a no-call/reference mismatch with the block's flag, or
when the incoming record fails the filter (the filter only runs when the
first two tests were false). -/
def acc_step1 (cfg : Config) (f : Fields) (no_call : Bool) (s : AccState) :
    Except Unit (List String × AccState) :=
  if no_call == true && s.ref_block == some true then emit_block s
  else if no_call == false && s.ref_block == some false then emit_block s
  else
    match meets_filter_criteria cfg f with
    | .error e => .error e
    | .ok b => if b == false then emit_block s else .ok ([], s)

/-- Second section of `accumulate_block` (lines 122-127): on the first
record of a block, set the tri-state flag, rewriting the genotype to `./.`
only when `no_call` is true. -/
def acc_rewrite (f : Fields) (no_call : Bool) (s1 : AccState) : Fields × AccState :=
  if no_call == true && s1.ref_block == none then
    ({ f with genotype := "./." }, { s1 with ref_block := some false })
  else if no_call == false && s1.ref_block == none then
    (f, { s1 with ref_block := some true })
  else (f, s1)

/-- Third section of `accumulate_block` (lines 129-144): open a block when
none is, else close-and-reopen on a chromosome change (short-circuiting
before any position parse) or when
`int(fields[POS]) > int(block_end_value(fields)) + 1` — note that, as in
the source, the end value is computed from the *incoming* record — and
otherwise absorb the record as the new end.  After a close-and-reopen the
reset `g_end_block` is left at `none` and `ref_block` is set from
`no_call`. -/
def acc_place (f2 : Fields) (no_call : Bool) (s2 : AccState) :
    Except Unit (List String × AccState) :=
  match s2.g_start_block with
  | none => .ok ([], { s2 with g_start_block := some f2, g_end_block := some f2 })
  | some sb =>
    if sb.chrom == f2.chrom then
      match s2.g_end_block with
      | none => .ok ([], { s2 with g_end_block := some f2 })
      | some _ =>
        match pyInt f2.pos, pyInt (block_end_value f2) with
        | some p, some bev =>
          if bev + 1 < p then
            match emit_block s2 with
            | .error e => .error e
            | .ok (o2, s3) =>
              .ok (o2, { s3 with g_start_block := some f2,
                                 ref_block := some (no_call == false) })
          else .ok ([], { s2 with g_end_block := some f2 })
        | _, _ => .error ()
    else
      match emit_block s2 with
      | .error e => .error e
      | .ok (o2, s3) =>
        .ok (o2, { s3 with g_start_block := some f2,
                           ref_block := some (no_call == false) })

/-- Embeds `gVCFMapper.accumulate_block` (lines 91-144), the composition of its
three sections in source order. -/
def accumulate_block (cfg : Config) (f : Fields) (no_call : Bool) (s : AccState) :
    Except Unit (List String × AccState) :=
  match acc_step1 cfg f no_call s with
  | .error e => .error e
  | .ok (o1, s1) =>
    let fs2 := acc_rewrite f no_call s1
    match acc_place fs2.1 no_call fs2.2 with
    | .error e => .error e
    | .ok (o2, s3) => .ok (o1 ++ o2, s3)

/-- Loop body of `gVCFMapper.run` (lines 68-80): rstrip the line, skip it
when blank, pass it through when a header, and otherwise route it by
`is_variant` — a variant flushes the open block and is emitted after it,
anything else goes to the accumulator with the default `no_call=False`. -/
def processLine (cfg : Config) (line : String) (s : AccState) :
    Except Unit (List String × AccState) :=
  let l := pyRstrip line
  if l == "" then .ok ([], s)
  else if pyStartsWith l "#" then .ok ([l], s)
  else
    match parseFields l with
    | none => .error ()
    | some f =>
      if is_variant f then
        match emit_block s with
        | .error e => .error e
        | .ok (o1, s1) => .ok (o1 ++ [l], s1)
      else accumulate_block cfg f false s

/-- The `for line in f` loop of `run`, one call of `processLine` per input
line, threading the accumulator state and concatenating the emitted
lines. -/
def processLines (cfg : Config) : List String → AccState → Except Unit (List String × AccState)
  | [], s => .ok ([], s)
  | l :: ls, s =>
    match processLine cfg l s with
    | .error e => .error e
    | .ok (o1, s1) =>
      match processLines cfg ls s1 with
      | .error e => .error e
      | .ok (o2, s2) => .ok (o1 ++ o2, s2)

/-- Embeds `gVCFMapper.run` (lines 65-83): the loop over all lines starting from
the fresh state, followed by the one final `emit_block` (line 83). -/
def run (cfg : Config) (lines : List String) : Except Unit (List String) :=
  match processLines cfg lines initAccState with
  | .error e => .error e
  | .ok (o, s) =>
    match emit_block s with
    | .error e => .error e
    | .ok (o2, _) => .ok (o ++ o2)

/-- The driver's loop restricted to a run of already-parsed non-variant
records (each the `accumulate_block` call of line 80), used to state
block-level properties without going through line parsing. -/
def accumulateMany (cfg : Config) : List Fields → AccState → Except Unit (List String × AccState)
  | [], s => .ok ([], s)
  | f :: fs, s =>
    match accumulate_block cfg f false s with
    | .error e => .error e
    | .ok (o1, s1) =>
      match accumulateMany cfg fs s1 with
      | .error e => .error e
      | .ok (o2, s2) => .ok (o1 ++ o2, s2)

/-- A single-base reference-call record on chromosome 1 at the given
position string, carrying no GQ/DP and no END, used as the synthetic
record of the testable properties. -/
def mkRec (p : String) : Fields :=
  ⟨"1", p, ".", "A", ".", "30", "PASS", ".", "GT", "0/0", []⟩

/-- Chromosome coherence of the open block: whenever an end record is
present, a start record is present on the same chromosome. -/
def blockChromInv (s : AccState) : Prop :=
  ∀ e, s.g_end_block = some e → ∃ b, s.g_start_block = some b ∧ e.chrom = b.chrom

/-- The driver for a stream made only of non-variant records: the loop of
`run` specialised to its `accumulate_block` branch, followed by the final
flush of line 83. -/
def runFields (cfg : Config) (fs : List Fields) : Except Unit (List String) :=
  match accumulateMany cfg fs initAccState with
  | .error e => .error e
  | .ok (o, s) =>
    match emit_block s with
    | .error e => .error e
    | .ok (o2, _) => .ok (o ++ o2)

instance {e a : Type} [DecidableEq e] [DecidableEq a] : DecidableEq (Except e a)
  | .ok x, .ok y =>
    if h : x = y then .isTrue (by rw [h]) else .isFalse (by intro hc; cases hc; exact h rfl)
  | .error x, .error y =>
    if h : x = y then .isTrue (by rw [h]) else .isFalse (by intro hc; cases hc; exact h rfl)
  | .ok _, .error _ => .isFalse (by intro hc; cases hc)
  | .error _, .ok _ => .isFalse (by intro hc; cases hc)

/-!
Helper lemmas shared by several verification results.
-/

/-- Closing an open block emits exactly one line and resets the state. -/
theorem emit_block_open (s : AccState) (b : Fields) (o : List String) (s' : AccState)
    (hb : s.g_start_block = some b) (h : emit_block s = .ok (o, s')) :
    (∃ l, o = [l]) ∧ s' = initAccState := by
  obtain ⟨gs, ge, rb⟩ := s
  dsimp only at hb
  subst hb
  dsimp only [emit_block] at h
  split at h
  · cases h
  · cases h
    exact ⟨⟨_, rfl⟩, rfl⟩

/-- Closing a block leaves the state either untouched (no open block) or
fully reset. -/
theorem emit_block_state (s : AccState) (o : List String) (s' : AccState)
    (h : emit_block s = .ok (o, s')) : s' = s ∨ s' = initAccState := by
  obtain ⟨gs, ge, rb⟩ := s
  cases gs with
  | none =>
    dsimp only [emit_block] at h
    cases h
    exact Or.inl rfl
  | some bf =>
    dsimp only [emit_block] at h
    split at h
    · cases h
    · cases h
      exact Or.inr rfl

/-- The END-rewrite rule of `emit_block`: with an open block whose end
record is present and not a no-call block, the emitted line is the start
record with INFO rewritten to the end record's end value plus its
reference-allele length minus one. -/
theorem emit_block_formula (s : AccState) (b e : Fields) (v : Int)
    (hb : s.g_start_block = some b) (he : s.g_end_block = some e)
    (hr : s.ref_block ≠ some false) (hv : pyInt (block_end_value e) = some v) :
    emit_block s =
      .ok ([joinFields { b with info := "END=" ++ pyStrInt (v + (e.ref.data.length : Int) - 1) }],
           initAccState) := by
  obtain ⟨gs, ge, rb⟩ := s
  dsimp only at hb he hr
  subst hb
  subst he
  have hrb : (rb == some false) = false := by
    cases hrb : rb with
    | none => rfl
    | some bb =>
      cases bb
      · exact absurd hrb hr
      · rfl
  dsimp only [emit_block]
  rw [hv]
  rw [hrb]
  simp [initAccState]

/-- C1: evaluation of the mapper at callable single-base reference records
on the same chromosome at positions 100 and 105 (no END key, thresholds
0).  The gap check of `accumulate_block` computes the block end value from
the incoming record itself, so `105 > 105 + 1` is false, the record is
absorbed, and the run emits ONE block spanning both positions with
`END=105` — not the two separate blocks the specified gap-of-one rule
requires. -/
theorem gap_of_five_is_merged_not_split :
    run ⟨0, 0⟩ ["1\t100\t.\tA\t.\t30\tPASS\t.\tGT\t0/0",
                "1\t105\t.\tA\t.\t30\tPASS\t.\tGT\t0/0"]
      = .ok ["1\t100\t.\tA\t.\t30\tPASS\tEND=105\tGT\t0/0"] := by decide

/-- C10: closing when no block is open emits nothing and leaves the whole
accumulator state unchanged, and closure is idempotent — a second
consecutive closure emits nothing, so two closures emit at most one
line. -/
theorem emit_block_noop_idempotent (s : AccState) (o : List String) (s' : AccState) :
    (s.g_start_block = none → emit_block s = .ok ([], s)) ∧
    (emit_block s = .ok (o, s') → emit_block s' = .ok ([], s') ∧ o.length ≤ 1) := by
  constructor
  · intro h
    obtain ⟨gs, ge, rb⟩ := s
    dsimp only at h
    subst h
    rfl
  · intro h
    cases hs : s.g_start_block with
    | none =>
      obtain ⟨gs, ge, rb⟩ := s
      dsimp only at hs
      subst hs
      cases h
      exact ⟨rfl, by simp⟩
    | some bf =>
      obtain ⟨⟨l, hl⟩, hres⟩ := emit_block_open s bf o s' hs h
      subst hres
      exact ⟨rfl, by simp [hl]⟩

/-- C10 witness: closure on the fresh (no open block) state. -/
theorem emit_block_noop_idempotent_witness :
    emit_block initAccState = .ok ([], initAccState) :=
  (emit_block_noop_idempotent initAccState [] initAccState).1 rfl

/-- C8: the driver's per-line step on a finite list of lines (the
structurally recursive `processLines`, which visits each line exactly
once) skips a line that rstrips to blank — no output, no state change —
and passes a header line (leading `#`) through as the sole output, again
without touching the accumulator state. -/
theorem blank_skipped_header_passthrough (cfg : Config) (line hline : String) (s : AccState) :
    (pyRstrip line = "" → processLine cfg line s = .ok ([], s)) ∧
    (pyRstrip line = hline → hline ≠ "" → pyStartsWith hline "#" = true →
      processLine cfg line s = .ok ([hline], s)) := by
  constructor
  · intro h
    simp [processLine, h]
  · intro h hne hh
    simp [processLine, h, hne, hh]

/-- C8 witness: a whitespace-only line is skipped and a header line (with
a trailing newline) passes through rstripped, both leaving the fresh state
unchanged. -/
theorem blank_skipped_header_passthrough_witness :
    processLine ⟨0, 0⟩ "  " initAccState = .ok ([], initAccState) ∧
    processLine ⟨0, 0⟩ "#CHROM\tPOS\n" initAccState = .ok (["#CHROM\tPOS"], initAccState) :=
  ⟨(blank_skipped_header_passthrough ⟨0, 0⟩ "  " "" initAccState).1 (by decide),
   (blank_skipped_header_passthrough ⟨0, 0⟩ "#CHROM\tPOS\n" "#CHROM\tPOS" initAccState).2
     (by decide) (by decide) (by decide)⟩

/-- C7: when a true variant line arrives while a block is open, the
driver's step emits the closed block's line strictly before the variant
line, in that order, with no other output. -/
theorem variant_flushes_block_first (cfg : Config) (line : String) (s s' : AccState)
    (f b : Fields) (bl : String)
    (hrs : pyRstrip line = line) (hne : line ≠ "")
    (hh : pyStartsWith line "#" = false)
    (hp : parseFields line = some f) (hv : is_variant f = true)
    (_hb : s.g_start_block = some b)
    (he : emit_block s = .ok ([bl], s')) :
    processLine cfg line s = .ok ([bl, line], s') := by
  simp only [processLine, hrs]
  rw [if_neg (by simpa using hne)]
  rw [if_neg (by simp [hh])]
  rw [hp]
  simp only [hv, if_pos]
  rw [he]
  rfl

/-- C7 witness: an open single-record block at position 10 is flushed as a
block line emitted before a variant line at position 12. -/
theorem variant_flushes_block_first_witness :
    processLine ⟨0, 0⟩ "1\t12\t.\tA\tC\t30\tPASS\t.\tGT\t0/1"
        ⟨some (mkRec "10"), some (mkRec "10"), some true⟩
      = .ok (["1\t10\t.\tA\t.\t30\tPASS\tEND=10\tGT\t0/0",
              "1\t12\t.\tA\tC\t30\tPASS\t.\tGT\t0/1"], initAccState) :=
  variant_flushes_block_first ⟨0, 0⟩ "1\t12\t.\tA\tC\t30\tPASS\t.\tGT\t0/1"
    ⟨some (mkRec "10"), some (mkRec "10"), some true⟩ initAccState
    ⟨"1", "12", ".", "A", "C", "30", "PASS", ".", "GT", "0/1", []⟩ (mkRec "10")
    "1\t10\t.\tA\t.\t30\tPASS\tEND=10\tGT\t0/0"
    (by decide) (by decide) (by decide) (by decide) (by decide) rfl (by decide)

/-- C6: after the loop over all input lines, `run` performs exactly one
further closure, so an input that ends with a block still open emits that
final block — one extra line appended after the loop's output. -/
theorem end_of_stream_flush (cfg : Config) (lines o : List String) (s : AccState)
    (b : Fields) (p : List String × AccState)
    (h1 : processLines cfg lines initAccState = .ok (o, s))
    (h2 : s.g_start_block = some b)
    (h3 : emit_block s = .ok p) :
    run cfg lines = .ok (o ++ p.1) ∧ ∃ l, p.1 = [l] := by
  obtain ⟨o2, s2⟩ := p
  refine ⟨?_, (emit_block_open s b o2 s2 h2 h3).1⟩
  unfold run
  rw [h1]
  dsimp only
  rw [h3]

/-- C6 witness: a one-line input ending mid-block still emits the block. -/
theorem end_of_stream_flush_witness :
    run ⟨0, 0⟩ ["1\t10\t.\tA\t.\t30\tPASS\t.\tGT\t0/0"]
      = .ok ([] ++ ["1\t10\t.\tA\t.\t30\tPASS\tEND=10\tGT\t0/0"]) ∧
    ∃ l, (["1\t10\t.\tA\t.\t30\tPASS\tEND=10\tGT\t0/0"], initAccState).1 = [l] :=
  end_of_stream_flush ⟨0, 0⟩ ["1\t10\t.\tA\t.\t30\tPASS\t.\tGT\t0/0"] []
    ⟨some (mkRec "10"), some (mkRec "10"), some true⟩ (mkRec "10")
    (["1\t10\t.\tA\t.\t30\tPASS\tEND=10\tGT\t0/0"], initAccState)
    (by decide) rfl (by decide)

/-- C3 counterexample: with `min_gq = 30`, a passing reference record at
100 (GQ 50) followed by a failing one at 101 (GQ 5) produces two blocks,
but the second emitted line keeps the original `GT:GQ` FORMAT and
`0/0:5` sample column — it is NOT rewritten to `GT` / `./.`, because the
driver always calls the accumulator with `no_call=False`. -/
theorem failing_record_not_rewritten :
    run ⟨30, 0⟩ ["1\t100\t.\tA\t.\t30\tPASS\t.\tGT:GQ\t0/0:50",
                 "1\t101\t.\tA\t.\t30\tPASS\t.\tGT:GQ\t0/0:5"]
      = .ok ["1\t100\t.\tA\t.\t30\tPASS\tEND=100\tGT:GQ\t0/0:50",
             "1\t101\t.\tA\t.\t30\tPASS\tEND=101\tGT:GQ\t0/0:5"] ∧
    meets_filter_criteria ⟨30, 0⟩ ⟨"1", "101", ".", "A", ".", "30", "PASS", ".",
        "GT:GQ", "0/0:5", []⟩ = .ok false ∧
    (parseFields "1\t101\t.\tA\t.\t30\tPASS\tEND=101\tGT:GQ\t0/0:5").map Fields.format
      ≠ some "GT" ∧
    (parseFields "1\t101\t.\tA\t.\t30\tPASS\tEND=101\tGT:GQ\t0/0:5").map Fields.genotype
      ≠ some "./." := by decide

/-- C3 (amended): a reference record failing the GQ/DP filter while a
callable reference block is open closes that block (one line emitted) and
becomes the start of a new block — unmodified, genotype and FORMAT intact,
and still flagged as a reference block, since the driver never passes
`no_call=True`; the failing position is not dropped. -/
theorem failing_record_splits_block_unrewritten (cfg : Config) (f : Fields)
    (s : AccState) (b : Fields) (o : List String) (s' : AccState)
    (hb : s.g_start_block = some b) (hr : s.ref_block = some true)
    (hm : meets_filter_criteria cfg f = .ok false)
    (ha : accumulate_block cfg f false s = .ok (o, s')) :
    (∃ l, o = [l]) ∧ s' = ⟨some f, some f, some true⟩ := by
  unfold accumulate_block at ha
  have hstep1 : acc_step1 cfg f false s = emit_block s := by
    unfold acc_step1
    rw [hr, hm]
    rfl
  rw [hstep1] at ha
  cases he : emit_block s with
  | error e => rw [he] at ha; cases ha
  | ok p =>
    obtain ⟨o1, s1⟩ := p
    obtain ⟨⟨l, hl⟩, hs1⟩ := emit_block_open s b o1 s1 hb he
    subst hl
    subst hs1
    rw [he] at ha
    dsimp only [acc_rewrite, acc_place, initAccState] at ha
    cases ha
    exact ⟨⟨l, rfl⟩, rfl⟩

/-- C3 witness: concrete instance of the amended behaviour with
`min_gq = 30` and a GQ-5 record arriving on an open GQ-50 block. -/
theorem failing_record_splits_block_unrewritten_witness :
    (∃ l, (["1\t100\t.\tA\t.\t30\tPASS\tEND=100\tGT:GQ\t0/0:50"] : List String) = [l]) ∧
    (⟨some ⟨"1", "101", ".", "A", ".", "30", "PASS", ".", "GT:GQ", "0/0:5", []⟩,
      some ⟨"1", "101", ".", "A", ".", "30", "PASS", ".", "GT:GQ", "0/0:5", []⟩,
      some true⟩ : AccState)
      = ⟨some ⟨"1", "101", ".", "A", ".", "30", "PASS", ".", "GT:GQ", "0/0:5", []⟩,
         some ⟨"1", "101", ".", "A", ".", "30", "PASS", ".", "GT:GQ", "0/0:5", []⟩,
         some true⟩ :=
  failing_record_splits_block_unrewritten ⟨30, 0⟩
    ⟨"1", "101", ".", "A", ".", "30", "PASS", ".", "GT:GQ", "0/0:5", []⟩
    ⟨some ⟨"1", "100", ".", "A", ".", "30", "PASS", ".", "GT:GQ", "0/0:50", []⟩,
     some ⟨"1", "100", ".", "A", ".", "30", "PASS", ".", "GT:GQ", "0/0:50", []⟩,
     some true⟩
    ⟨"1", "100", ".", "A", ".", "30", "PASS", ".", "GT:GQ", "0/0:50", []⟩
    ["1\t100\t.\tA\t.\t30\tPASS\tEND=100\tGT:GQ\t0/0:50"]
    ⟨some ⟨"1", "101", ".", "A", ".", "30", "PASS", ".", "GT:GQ", "0/0:5", []⟩,
     some ⟨"1", "101", ".", "A", ".", "30", "PASS", ".", "GT:GQ", "0/0:5", []⟩,
     some true⟩
    rfl rfl (by decide) (by decide)

/-- C4: full characterization of `meets_filter_criteria` — a non-reference
record passes unconditionally; a reference candidate with REF `N` fails
unconditionally; a decoded GQ below `min_gq` fails; with GQ absent or
passing, a decoded DP below `min_dp` fails; and with both GQ and DP absent
or at threshold the record passes, so absence of either key is never by
itself a failure. -/
theorem filter_criteria_characterization (cfg : Config) (f : Fields)
    (ci : List (String × String)) (g d : String) (gi di : Int) :
    (is_ref f = false → meets_filter_criteria cfg f = .ok true)
  ∧ (is_ref f = true → f.ref = "N" → meets_filter_criteria cfg f = .ok false)
  ∧ (is_ref f = true → f.ref ≠ "N" → call_info f = .ok ci → dget ci "GQ" = some g →
      pyInt g = some gi → gi < cfg.min_gq → meets_filter_criteria cfg f = .ok false)
  ∧ (is_ref f = true → f.ref ≠ "N" → call_info f = .ok ci →
      (dget ci "GQ" = none ∨ (dget ci "GQ" = some g ∧ pyInt g = some gi ∧ cfg.min_gq ≤ gi)) →
      dget ci "DP" = some d → pyInt d = some di → di < cfg.min_dp →
      meets_filter_criteria cfg f = .ok false)
  ∧ (is_ref f = true → f.ref ≠ "N" → call_info f = .ok ci →
      (dget ci "GQ" = none ∨ (dget ci "GQ" = some g ∧ pyInt g = some gi ∧ cfg.min_gq ≤ gi)) →
      (dget ci "DP" = none ∨ (dget ci "DP" = some d ∧ pyInt d = some di ∧ cfg.min_dp ≤ di)) →
      meets_filter_criteria cfg f = .ok true) := by
  refine ⟨?_, ?_, ?_, ?_, ?_⟩
  · intro h
    simp [meets_filter_criteria, h]
  · intro h hN
    simp [meets_filter_criteria, h, hN]
  · intro h hN hci hgq hgi hlt
    simp only [meets_filter_criteria, h, if_true]
    rw [if_neg (by simpa using hN), hci]
    dsimp only
    rw [hgq]
    dsimp only
    rw [hgi]
    dsimp only
    rw [if_pos hlt]
  · intro h hN hci hgq hdp hdi hlt
    simp only [meets_filter_criteria, h, if_true]
    rw [if_neg (by simpa using hN), hci]
    dsimp only
    have hdpc : dpCheck cfg ci = .ok false := by
      unfold dpCheck
      rw [hdp]
      dsimp only
      rw [hdi]
      dsimp only
      rw [if_pos hlt]
    rcases hgq with hnone | ⟨hsome, hgi, hge⟩
    · rw [hnone]
      exact hdpc
    · rw [hsome]
      dsimp only
      rw [hgi]
      dsimp only
      rw [if_neg (by omega)]
      exact hdpc
  · intro h hN hci hgq hdp
    simp only [meets_filter_criteria, h, if_true]
    rw [if_neg (by simpa using hN), hci]
    dsimp only
    have hdpc : dpCheck cfg ci = .ok true := by
      unfold dpCheck
      rcases hdp with hnone | ⟨hsome, hdi, hge⟩
      · rw [hnone]
      · rw [hsome]
        dsimp only
        rw [hdi]
        dsimp only
        rw [if_neg (by omega)]
    rcases hgq with hnone | ⟨hsome, hgi, hge⟩
    · rw [hnone]
      exact hdpc
    · rw [hsome]
      dsimp only
      rw [hgi]
      dsimp only
      rw [if_neg (by omega)]
      exact hdpc

/-- C4 witness: a variant record passes, an N-reference fails, a GQ of 5
under threshold 30 fails, a DP of 3 under threshold 7 fails, and a record
carrying neither GQ nor DP passes under any thresholds. -/
theorem filter_criteria_characterization_witness :
    meets_filter_criteria ⟨30, 7⟩ ⟨"1", "12", ".", "A", "C", "30", "PASS", ".", "GT", "0/1", []⟩
      = .ok true ∧
    meets_filter_criteria ⟨0, 0⟩ ⟨"1", "13", ".", "N", ".", "30", "PASS", ".", "GT", "0/0", []⟩
      = .ok false ∧
    meets_filter_criteria ⟨30, 7⟩ ⟨"1", "14", ".", "A", ".", "30", "PASS", ".",
        "GT:GQ", "0/0:5", []⟩ = .ok false ∧
    meets_filter_criteria ⟨30, 7⟩ ⟨"1", "15", ".", "A", ".", "30", "PASS", ".",
        "GT:GQ:DP", "0/0:50:3", []⟩ = .ok false ∧
    meets_filter_criteria ⟨30, 7⟩ ⟨"1", "16", ".", "A", ".", "30", "PASS", ".",
        "GT", "0/0", []⟩ = .ok true :=
  ⟨(filter_criteria_characterization ⟨30, 7⟩ _ [] "" "" 0 0).1 (by decide),
   (filter_criteria_characterization ⟨0, 0⟩ _ [] "" "" 0 0).2.1 (by decide) (by decide),
   (filter_criteria_characterization ⟨30, 7⟩ _ [("GT", "0/0"), ("GQ", "5")] "5" "" 5 0).2.2.1
     (by decide) (by decide) (by decide) (by decide) (by decide) (by decide),
   (filter_criteria_characterization ⟨30, 7⟩ _ [("GT", "0/0"), ("GQ", "50"), ("DP", "3")]
       "50" "3" 50 3).2.2.2.1
     (by decide) (by decide) (by decide) (Or.inr ⟨by decide, by decide, by decide⟩)
     (by decide) (by decide) (by decide),
   (filter_criteria_characterization ⟨30, 7⟩ _ [("GT", "0/0")] "" "" 0 0).2.2.2.2
     (by decide) (by decide) (by decide) (Or.inl (by decide)) (Or.inl (by decide))⟩

/-- Prefix-stripping succeeds exactly when the pattern heads the list. -/
theorem stripPre_isSome_iff (p : List Char) :
    ∀ l, (stripPre p l).isSome = true ↔ ∃ t, l = p ++ t := by
  induction p with
  | nil =>
    intro l
    simp [stripPre]
  | cons a as ih =>
    intro l
    cases l with
    | nil =>
      simp [stripPre]
    | cons b bs =>
      by_cases hab : a = b
      · subst hab
        simp [stripPre, ih]
      · simp only [stripPre]
        rw [if_neg (by simpa using hab)]
        simp only [Option.isSome_none, Bool.false_eq_true, false_iff]
        rintro ⟨t, ht⟩
        simp only [List.cons_append, List.cons.injEq] at ht
        exact hab ht.1.symm

/-- Substring scanning succeeds exactly on a three-way decomposition. -/
theorem chContains_iff (p : List Char) :
    ∀ l, chContains p l = true ↔ ∃ u v, l = u ++ p ++ v := by
  intro l
  induction l with
  | nil =>
    simp only [chContains, stripPre_isSome_iff]
    constructor
    · rintro ⟨t, ht⟩
      exact ⟨[], t, by simpa using ht⟩
    · rintro ⟨u, v, huv⟩
      refine ⟨v, ?_⟩
      cases u with
      | nil => simpa using huv
      | cons x xs => simp at huv
  | cons c cs ih =>
    simp only [chContains, Bool.or_eq_true, stripPre_isSome_iff, ih]
    constructor
    · rintro (⟨t, ht⟩ | ⟨u, v, huv⟩)
      · exact ⟨[], t, by simpa using ht⟩
      · exact ⟨c :: u, v, by simp [huv]⟩
    · rintro ⟨u, v, huv⟩
      cases u with
      | nil =>
        exact Or.inl ⟨v, by simpa using huv⟩
      | cons x xs =>
        simp only [List.cons_append, List.append_assoc, List.cons.injEq] at huv
        exact Or.inr ⟨xs, v, by simp [huv.2]⟩

/-- C5 counterexample: a genotype column `0/0:12` (a call with extra
colon-separated values, as real sample columns have) is classified as NOT
a variant although the string equals neither `0|0` nor `0/0`, refuting
the equality-based reading. -/
theorem is_variant_not_equality :
    is_variant ⟨"1", "10", ".", "A", ".", "30", "PASS", ".", "GT:DP", "0/0:12", []⟩ = false ∧
    ("0/0:12" : String) ≠ "0|0" ∧ ("0/0:12" : String) ≠ "0/0" := by decide

/-- C5 (amended): `is_variant` returns `false` exactly when the genotype
string CONTAINS `0|0` or `0/0` as a substring (Python's `in` operator),
and `true` for every other genotype string. -/
theorem is_variant_substring_characterization (f : Fields) :
    is_variant f = false ↔
      (∃ u v, f.genotype.data = u ++ "0|0".data ++ v) ∨
      (∃ u v, f.genotype.data = u ++ "0/0".data ++ v) := by
  simp only [is_variant, pyContains, Bool.not_eq_false', Bool.or_eq_true, chContains_iff]

/-- Placement step for a synthetic record arriving on an open
same-chromosome block whose end record is present: the gap test compares
the incoming record's position with its own end value, which can never
exceed it by more than one, so the record is absorbed as the new end. -/
theorem acc_place_mkRec (x : String) (b e : Fields) (q : Int)
    (hb : b.chrom = "1") (hq : pyInt x = some q) :
    acc_place (mkRec x) false ⟨some b, some e, some true⟩
      = .ok ([], ⟨some b, some (mkRec x), some true⟩) := by
  unfold acc_place
  dsimp only
  rw [hb]
  rw [if_pos (show (("1" : String) == (mkRec x).chrom) = true from rfl)]
  rw [show (mkRec x).pos = x from rfl, show block_end_value (mkRec x) = x from rfl, hq]
  dsimp only
  rw [if_neg (by omega)]

/-- Accumulating a synthetic reference record into an open reference block
on the same chromosome absorbs it as the new end record: the filter passes
(no GQ/DP, REF `A`), so no flush happens, and the placement step absorbs
the record. -/
theorem accumulate_mkRec_absorb (cfg : Config) (x : String) (b e : Fields) (q : Int)
    (hb : b.chrom = "1") (hq : pyInt x = some q) :
    accumulate_block cfg (mkRec x) false ⟨some b, some e, some true⟩
      = .ok ([], ⟨some b, some (mkRec x), some true⟩) := by
  unfold accumulate_block
  rw [show acc_step1 cfg (mkRec x) false ⟨some b, some e, some true⟩
        = .ok ([], ⟨some b, some e, some true⟩) from rfl]
  dsimp only
  rw [show acc_rewrite (mkRec x) false ⟨some b, some e, some true⟩
        = (mkRec x, ⟨some b, some e, some true⟩) from rfl]
  dsimp only
  rw [acc_place_mkRec x b e q hb hq]
  rfl

/-- Accumulating the first synthetic record from the fresh state opens a
block with it as both start and end, flagged as a reference block. -/
theorem accumulate_mkRec_fresh (cfg : Config) (x : String) :
    accumulate_block cfg (mkRec x) false initAccState
      = .ok ([], ⟨some (mkRec x), some (mkRec x), some true⟩) := rfl

/-- Unfolding step of the record-stream driver on a non-empty stream. -/
theorem accumulateMany_cons (cfg : Config) (f : Fields) (fs : List Fields) (s : AccState) :
    accumulateMany cfg (f :: fs) s =
      match accumulate_block cfg f false s with
      | .error e => .error e
      | .ok (o1, s1) =>
        match accumulateMany cfg fs s1 with
        | .error e => .error e
        | .ok (o2, s2) => .ok (o1 ++ o2, s2) := rfl

/-- A run of `k + 1` synthetic records indexed `j, …, j + k`, all with
parseable positions, is wholly absorbed into an open reference block,
leaving the last record as the block end. -/
theorem accumulateMany_absorb (cfg : Config) (ps : Nat → String) :
    ∀ (k j : Nat) (b e : Fields), b.chrom = "1" →
    (∀ i, i ≤ k → (pyInt (ps (j + i))).isSome) →
    accumulateMany cfg ((List.range' j (k + 1)).map (fun i => mkRec (ps i)))
        ⟨some b, some e, some true⟩
      = .ok ([], ⟨some b, some (mkRec (ps (j + k))), some true⟩) := by
  intro k
  induction k with
  | zero =>
    intro j b e hb hps
    obtain ⟨q, hq⟩ := Option.isSome_iff_exists.mp (hps 0 (by omega))
    have hq' : pyInt (ps j) = some q := hq
    rw [show List.range' j (0 + 1) = [j] from rfl, List.map_cons, List.map_nil]
    rw [accumulateMany_cons, accumulate_mkRec_absorb cfg (ps j) b e q hb hq']
    rfl
  | succ k ih =>
    intro j b e hb hps
    obtain ⟨q, hq⟩ := Option.isSome_iff_exists.mp (hps 0 (by omega))
    have hq' : pyInt (ps j) = some q := hq
    rw [show List.range' j (k + 1 + 1) = j :: List.range' (j + 1) (k + 1) from rfl,
        List.map_cons]
    rw [accumulateMany_cons, accumulate_mkRec_absorb cfg (ps j) b e q hb hq']
    dsimp only
    have ih' := ih (j + 1) b (mkRec (ps j)) hb
      (fun i hi => by
        have hx := hps (i + 1) (by omega)
        rw [show j + 1 + i = j + (i + 1) from by omega]
        exact hx)
    rw [show j + 1 + k = j + (k + 1) from by omega] at ih'
    rw [ih']
    rfl

/-- C2 counterexample: a record on chromosome 1 followed by one on
chromosome 2 triggers a chromosome split, which installs the second record
as the new block start while leaving the reset `g_end_block` at `None`;
the final flush then emits that single-record block with its ORIGINAL INFO
column `.` — not the claimed `END=20` (its position plus reference length
minus one). -/
theorem split_singleton_block_keeps_original_info :
    run ⟨0, 0⟩ ["1\t10\t.\tA\t.\t30\tPASS\t.\tGT\t0/0",
                "2\t20\t.\tA\t.\t30\tPASS\t.\tGT\t0/0"]
      = .ok ["1\t10\t.\tA\t.\t30\tPASS\tEND=10\tGT\t0/0",
             "2\t20\t.\tA\t.\t30\tPASS\t.\tGT\t0/0"] ∧
    (parseFields "2\t20\t.\tA\t.\t30\tPASS\t.\tGT\t0/0").map Fields.info ≠ some "END=20" := by
  decide

/-- C2 (amended): first, whenever a block closes with an end record
present (which holds for every block opened from the fresh state, since
opening sets start and end together), the emitted INFO is rewritten to
`END = (END of the end record's INFO, or its position) + len(its REF) - 1`;
second, a stream of `N ≥ 1` contiguous single-base reference records
starting at position `p` is emitted as one block with `END = p + N - 1`.
Only a start record installed by a chromosome/gap split lacks an end
record, and such a block closes with its INFO left unchanged. -/
theorem emit_end_formula_and_contiguous_block (cfg : Config) :
    (∀ (s : AccState) (b e : Fields) (v : Int),
      s.g_start_block = some b → s.g_end_block = some e → s.ref_block ≠ some false →
      pyInt (block_end_value e) = some v →
      emit_block s =
        .ok ([joinFields { b with info := "END=" ++ pyStrInt (v + (e.ref.data.length : Int) - 1) }],
             initAccState))
  ∧ (∀ (N : Nat) (p : Int) (ps : Nat → String), 1 ≤ N →
      (∀ i, i < N → pyInt (ps i) = some (p + i)) →
      runFields cfg ((List.range N).map (fun i => mkRec (ps i)))
        = .ok [joinFields { mkRec (ps 0) with info := "END=" ++ pyStrInt (p + N - 1) }]) := by
  constructor
  · exact fun s b e v hb he hr hv => emit_block_formula s b e v hb he hr hv
  · intro N p ps hN hps
    obtain ⟨K, rfl⟩ : ∃ K, N = K + 1 := ⟨N - 1, by omega⟩
    unfold runFields
    rw [List.range_eq_range']
    cases K with
    | zero =>
      have h0 : pyInt (ps 0) = some (p + 0) := by simpa using hps 0 (by omega)
      rw [show List.range' 0 (0 + 1) = [0] from rfl, List.map_cons, List.map_nil]
      rw [accumulateMany_cons, accumulate_mkRec_fresh cfg (ps 0)]
      dsimp only [accumulateMany]
      rw [emit_block_formula _ (mkRec (ps 0)) (mkRec (ps 0)) (p + 0) rfl rfl
        (by simp) (by rw [show block_end_value (mkRec (ps 0)) = ps 0 from rfl]; exact h0)]
      rw [show p + 0 + (((mkRec (ps 0)).ref.data.length : Nat) : Int) - 1
            = p + ((0 + 1 : Nat) : Int) - 1 from by
        rw [show ((mkRec (ps 0)).ref.data.length : Nat) = 1 from rfl]
        push_cast
        ring]
      rfl
    | succ k =>
      have hlast : pyInt (ps (k + 1)) = some (p + ((k + 1 : Nat) : Int)) :=
        hps (k + 1) (by omega)
      rw [show List.range' 0 (k + 1 + 1) = 0 :: List.range' 1 (k + 1) from rfl, List.map_cons]
      rw [accumulateMany_cons, accumulate_mkRec_fresh cfg (ps 0)]
      dsimp only
      have habs := accumulateMany_absorb cfg ps k 1 (mkRec (ps 0)) (mkRec (ps 0)) rfl
        (fun i hi => by
          rw [show (1 : Nat) + i = i + 1 from by omega]
          exact Option.isSome_iff_exists.mpr ⟨_, hps (i + 1) (by omega)⟩)
      rw [show (1 : Nat) + k = k + 1 from by omega] at habs
      rw [habs]
      dsimp only
      rw [emit_block_formula _ (mkRec (ps 0)) (mkRec (ps (k + 1))) (p + ((k + 1 : Nat) : Int))
        rfl rfl (by simp)
        (by rw [show block_end_value (mkRec (ps (k + 1))) = ps (k + 1) from rfl]; exact hlast)]
      rw [show p + ((k + 1 : Nat) : Int) + (((mkRec (ps (k + 1))).ref.data.length : Nat) : Int) - 1
            = p + ((k + 1 + 1 : Nat) : Int) - 1 from by
        rw [show ((mkRec (ps (k + 1))).ref.data.length : Nat) = 1 from rfl]
        push_cast
        ring]
      rfl

/-- C2 witness: two contiguous records at positions 100 and 101 emit one
block whose INFO is `END=101`. -/
theorem emit_end_formula_and_contiguous_block_witness :
    runFields ⟨0, 0⟩ ((List.range 2).map
        (fun i => mkRec (pyStrInt (100 + (i : Int)))))
      = .ok [joinFields { mkRec (pyStrInt (100 + ((0 : Nat) : Int)))
          with info := "END=" ++ pyStrInt (100 + ((2 : Nat) : Int) - 1) }] :=
  (emit_end_formula_and_contiguous_block ⟨0, 0⟩).2 2 100
    (fun i => pyStrInt (100 + (i : Int))) (by omega) (by decide)

/-- The fresh state trivially satisfies the chromosome invariant. -/
theorem initAccState_inv : blockChromInv initAccState := by
  intro e he
  simp [initAccState] at he

/-- The closing section of `accumulate_block` leaves the state either
unchanged or reset. -/
theorem acc_step1_state (cfg : Config) (f : Fields) (nc : Bool) (s : AccState)
    (o1 : List String) (s1 : AccState) (h : acc_step1 cfg f nc s = .ok (o1, s1)) :
    s1 = s ∨ s1 = initAccState := by
  unfold acc_step1 at h
  split at h
  · exact emit_block_state s o1 s1 h
  · split at h
    · exact emit_block_state s o1 s1 h
    · split at h
      · cases h
      · split at h
        · exact emit_block_state s o1 s1 h
        · cases h
          exact Or.inl rfl

/-- With an open block, the closing section can only produce no output by
leaving the state untouched. -/
theorem acc_step1_no_output (cfg : Config) (f : Fields) (nc : Bool) (s s1 : AccState)
    (b : Fields) (hb : s.g_start_block = some b)
    (h : acc_step1 cfg f nc s = .ok ([], s1)) : s1 = s := by
  unfold acc_step1 at h
  split at h
  · obtain ⟨⟨l, hl⟩, _⟩ := emit_block_open s b [] s1 hb h
    cases hl
  · split at h
    · obtain ⟨⟨l, hl⟩, _⟩ := emit_block_open s b [] s1 hb h
      cases hl
    · split at h
      · cases h
      · split at h
        · obtain ⟨⟨l, hl⟩, _⟩ := emit_block_open s b [] s1 hb h
          cases hl
        · cases h
          rfl

/-- The genotype-rewrite section never touches the block fields and never
changes the record's chromosome. -/
theorem acc_rewrite_blocks (f : Fields) (nc : Bool) (s1 : AccState) :
    (acc_rewrite f nc s1).2.g_start_block = s1.g_start_block ∧
    (acc_rewrite f nc s1).2.g_end_block = s1.g_end_block ∧
    (acc_rewrite f nc s1).1.chrom = f.chrom := by
  unfold acc_rewrite
  split
  · exact ⟨rfl, rfl, rfl⟩
  · split
    · exact ⟨rfl, rfl, rfl⟩
    · exact ⟨rfl, rfl, rfl⟩

/-- With the driver's `no_call=False`, the rewrite section hands the record
through unmodified. -/
theorem acc_rewrite_fst_false (f : Fields) (s1 : AccState) :
    (acc_rewrite f false s1).1 = f := by
  unfold acc_rewrite
  split
  · rename_i hcond
    simp at hcond
  · split
    · rfl
    · rfl

/-- The placement section preserves the chromosome invariant. -/
theorem acc_place_inv (f2 : Fields) (nc : Bool) (s2 : AccState) (o2 : List String)
    (s' : AccState) (hi : blockChromInv s2) (h : acc_place f2 nc s2 = .ok (o2, s')) :
    blockChromInv s' := by
  obtain ⟨gs, ge, rb⟩ := s2
  cases gs with
  | none =>
    dsimp only [acc_place] at h
    cases h
    intro e he
    dsimp only at he
    cases he
    exact ⟨f2, rfl, rfl⟩
  | some sb =>
    dsimp only [acc_place] at h
    by_cases hc : (sb.chrom == f2.chrom) = true
    · rw [if_pos hc] at h
      cases ge with
      | none =>
        dsimp only at h
        cases h
        intro e he
        dsimp only at he
        cases he
        exact ⟨sb, rfl, (eq_of_beq hc).symm⟩
      | some ee =>
        dsimp only at h
        cases hp : pyInt f2.pos with
        | none =>
          rw [hp] at h
          dsimp only at h
          cases h
        | some pv =>
          cases hbev : pyInt (block_end_value f2) with
          | none =>
            rw [hp, hbev] at h
            dsimp only at h
            cases h
          | some bev =>
            rw [hp, hbev] at h
            dsimp only at h
            by_cases hg : bev + 1 < pv
            · rw [if_pos hg] at h
              cases hemit : emit_block ⟨some sb, some ee, rb⟩ with
              | error e => rw [hemit] at h; cases h
              | ok pr =>
                obtain ⟨oo, ss⟩ := pr
                rw [hemit] at h
                dsimp only at h
                obtain ⟨_, hss⟩ := emit_block_open ⟨some sb, some ee, rb⟩ sb oo ss rfl hemit
                subst hss
                cases h
                intro e he
                simp [initAccState] at he
            · rw [if_neg hg] at h
              cases h
              intro e he
              dsimp only at he
              cases he
              exact ⟨sb, rfl, (eq_of_beq hc).symm⟩
    · rw [if_neg hc] at h
      cases hemit : emit_block ⟨some sb, ge, rb⟩ with
      | error e => rw [hemit] at h; cases h
      | ok pr =>
        obtain ⟨oo, ss⟩ := pr
        rw [hemit] at h
        dsimp only at h
        obtain ⟨_, hss⟩ := emit_block_open ⟨some sb, ge, rb⟩ sb oo ss rfl hemit
        subst hss
        cases h
        intro e he
        simp [initAccState] at he

/-- With an open same-chromosome block, a placement producing no output is
exactly an absorption: the start is kept and the record becomes the end. -/
theorem acc_place_absorb_of_no_output (f2 : Fields) (s2 s3 : AccState) (b : Fields)
    (hb2 : s2.g_start_block = some b) (h : acc_place f2 false s2 = .ok ([], s3)) :
    s3.g_start_block = some b ∧ s3.g_end_block = some f2 ∧ f2.chrom = b.chrom := by
  obtain ⟨gs, ge, rb⟩ := s2
  dsimp only at hb2
  subst hb2
  dsimp only [acc_place] at h
  by_cases hc : (b.chrom == f2.chrom) = true
  · rw [if_pos hc] at h
    cases ge with
    | none =>
      cases h
      exact ⟨rfl, rfl, (eq_of_beq hc).symm⟩
    | some ee =>
      dsimp only at h
      cases hp : pyInt f2.pos with
      | none =>
        rw [hp] at h
        dsimp only at h
        cases h
      | some pv =>
        cases hbev : pyInt (block_end_value f2) with
        | none =>
          rw [hp, hbev] at h
          dsimp only at h
          cases h
        | some bev =>
          rw [hp, hbev] at h
          dsimp only at h
          by_cases hg : bev + 1 < pv
          · rw [if_pos hg] at h
            cases hemit : emit_block ⟨some b, some ee, rb⟩ with
            | error e => rw [hemit] at h; cases h
            | ok pr =>
              obtain ⟨oo, ss⟩ := pr
              rw [hemit] at h
              dsimp only at h
              obtain ⟨⟨l, hl⟩, _⟩ := emit_block_open ⟨some b, some ee, rb⟩ b oo ss rfl hemit
              subst hl
              cases h
          · rw [if_neg hg] at h
            cases h
            exact ⟨rfl, rfl, (eq_of_beq hc).symm⟩
  · rw [if_neg hc] at h
    cases hemit : emit_block ⟨some b, ge, rb⟩ with
    | error e => rw [hemit] at h; cases h
    | ok pr =>
      obtain ⟨oo, ss⟩ := pr
      rw [hemit] at h
      dsimp only at h
      obtain ⟨⟨l, hl⟩, _⟩ := emit_block_open ⟨some b, ge, rb⟩ b oo ss rfl hemit
      subst hl
      cases h

/-- The whole accumulator step preserves the chromosome invariant. -/
theorem accumulate_inv (cfg : Config) (f : Fields) (nc : Bool) (s : AccState)
    (o : List String) (s' : AccState) (hi : blockChromInv s)
    (h : accumulate_block cfg f nc s = .ok (o, s')) : blockChromInv s' := by
  unfold accumulate_block at h
  cases h1 : acc_step1 cfg f nc s with
  | error e => rw [h1] at h; cases h
  | ok p1 =>
    obtain ⟨o1, s1⟩ := p1
    rw [h1] at h
    dsimp only at h
    cases h2 : acc_place (acc_rewrite f nc s1).1 nc (acc_rewrite f nc s1).2 with
    | error e => rw [h2] at h; cases h
    | ok p2 =>
      obtain ⟨o2, s3⟩ := p2
      rw [h2] at h
      dsimp only at h
      cases h
      have hs1 : blockChromInv s1 := by
        rcases acc_step1_state cfg f nc s o1 s1 h1 with rfl | rfl
        · exact hi
        · exact initAccState_inv
      have hs2 : blockChromInv (acc_rewrite f nc s1).2 := by
        intro e he
        rw [(acc_rewrite_blocks f nc s1).2.1] at he
        obtain ⟨b, hbs, hcs⟩ := hs1 e he
        exact ⟨b, by rw [(acc_rewrite_blocks f nc s1).1]; exact hbs, hcs⟩
      exact acc_place_inv _ nc _ _ _ hs2 h2

/-- The driver's per-line step preserves the chromosome invariant. -/
theorem processLine_inv (cfg : Config) (line : String) (s : AccState)
    (o : List String) (s' : AccState) (hi : blockChromInv s)
    (h : processLine cfg line s = .ok (o, s')) : blockChromInv s' := by
  unfold processLine at h
  dsimp only at h
  by_cases hblank : (pyRstrip line == "") = true
  · rw [if_pos hblank] at h
    cases h
    exact hi
  · rw [if_neg hblank] at h
    by_cases hhead : pyStartsWith (pyRstrip line) "#" = true
    · rw [if_pos hhead] at h
      cases h
      exact hi
    · rw [if_neg hhead] at h
      cases hpf : parseFields (pyRstrip line) with
      | none =>
        rw [hpf] at h
        cases h
      | some f =>
        rw [hpf] at h
        dsimp only at h
        by_cases hv : is_variant f = true
        · rw [if_pos hv] at h
          cases hemit : emit_block s with
          | error e => rw [hemit] at h; cases h
          | ok pr =>
            obtain ⟨o1, s1⟩ := pr
            rw [hemit] at h
            dsimp only at h
            rcases emit_block_state s o1 s1 hemit with rfl | rfl
            · cases h
              exact hi
            · cases h
              exact initAccState_inv
        · rw [if_neg hv] at h
          exact accumulate_inv cfg f false s o s' hi h

/-- The driver's loop preserves the chromosome invariant. -/
theorem processLines_inv (cfg : Config) :
    ∀ (lines : List String) (s : AccState) (o : List String) (s' : AccState),
    blockChromInv s → processLines cfg lines s = .ok (o, s') → blockChromInv s' := by
  intro lines
  induction lines with
  | nil =>
    intro s o s' hi h
    cases h
    exact hi
  | cons l ls ih =>
    intro s o s' hi h
    dsimp only [processLines] at h
    cases h1 : processLine cfg l s with
    | error e => rw [h1] at h; cases h
    | ok p1 =>
      obtain ⟨o1, s1⟩ := p1
      rw [h1] at h
      dsimp only at h
      cases h2 : processLines cfg ls s1 with
      | error e => rw [h2] at h; cases h
      | ok p2 =>
        obtain ⟨o2, s2⟩ := p2
        rw [h2] at h
        dsimp only at h
        cases h
        exact ih s1 _ _ (processLine_inv cfg l s o1 s1 hi h1) h2

/-- C9: at every point of stream processing reachable from the fresh
state, any end record of the open block shares the start record's
chromosome; and an accumulation with an open block that emits nothing is
exactly an absorption — the incoming record becomes the block end and has
the start record's chromosome, so a record on a different chromosome can
only enter after the block is closed. -/
theorem block_chromosome_invariant (cfg : Config) :
    (∀ (lines o : List String) (s : AccState),
      processLines cfg lines initAccState = .ok (o, s) → blockChromInv s)
  ∧ (∀ (f : Fields) (s s' : AccState) (b : Fields),
      s.g_start_block = some b → accumulate_block cfg f false s = .ok ([], s') →
      s'.g_start_block = some b ∧ s'.g_end_block = some f ∧ f.chrom = b.chrom) := by
  constructor
  · intro lines o s h
    exact processLines_inv cfg lines initAccState o s initAccState_inv h
  · intro f s s' b hb ha
    unfold accumulate_block at ha
    cases h1 : acc_step1 cfg f false s with
    | error e => rw [h1] at ha; cases ha
    | ok p1 =>
      obtain ⟨o1, s1⟩ := p1
      rw [h1] at ha
      dsimp only at ha
      cases h2 : acc_place (acc_rewrite f false s1).1 false (acc_rewrite f false s1).2 with
      | error e => rw [h2] at ha; cases ha
      | ok p2 =>
        obtain ⟨o2, s3⟩ := p2
        rw [h2] at ha
        dsimp only at ha
        injection ha with ha'
        have ho : o1 ++ o2 = [] := congrArg Prod.fst ha'
        have hs3 : s3 = s' := congrArg Prod.snd ha'
        have ho1 : o1 = [] := (List.append_eq_nil.mp ho).1
        have ho2 : o2 = [] := (List.append_eq_nil.mp ho).2
        rw [ho1] at h1
        have hs1 : s1 = s := acc_step1_no_output cfg f false s s1 b hb h1
        rw [hs1, ho2, hs3, acc_rewrite_fst_false f s] at h2
        have hs2start : (acc_rewrite f false s).2.g_start_block = some b := by
          rw [(acc_rewrite_blocks f false s).1]
          exact hb
        exact acc_place_absorb_of_no_output f (acc_rewrite f false s).2 s' b hs2start h2

/-- C9 witness: absorbing a same-chromosome record into an open block, and
the invariant at the fresh state. -/
theorem block_chromosome_invariant_witness :
    ((⟨some (mkRec "10"), some (mkRec "11"), some true⟩ : AccState).g_start_block
        = some (mkRec "10") ∧
      (⟨some (mkRec "10"), some (mkRec "11"), some true⟩ : AccState).g_end_block
        = some (mkRec "11") ∧
      (mkRec "11").chrom = (mkRec "10").chrom) ∧
    blockChromInv initAccState :=
  ⟨(block_chromosome_invariant ⟨0, 0⟩).2 (mkRec "11")
      ⟨some (mkRec "10"), some (mkRec "10"), some true⟩
      ⟨some (mkRec "10"), some (mkRec "11"), some true⟩ (mkRec "10") rfl (by decide),
   (block_chromosome_invariant ⟨0, 0⟩).1 [] [] initAccState rfl⟩

end Googva
